import Mathlib

/-
Shallow embedding of src/modules/@angular/compiler/src/runtime_compiler.ts.

The TypeScript source is a single-threaded, promise-based compilation
orchestrator (class RuntimeCompiler).  We embed it as a state machine:

* Object identity (JS reference equality of CompiledTemplate instances,
  proxy closures, ComponentFactory objects, fresh cache-key objects made by
  "new Object()", and promises returned by the XHR transport) is modelled by
  allocating fresh natural numbers from a counter (St.nextId).
* The three caches of the class are association lists.
* Calls to the external collaborators (metadata resolver, style compiler,
  directive normalizer, template parser, view compiler / code generator and
  the XHR transport) are recorded as events in a trace (St.trace), in the
  order the source performs them.
* A promise continuation (the .then callback built in _loadAndCompileComponent
  lines 83-99, and the nested stylesheet resolution of
  _resolveStylesCompileResult lines 158-187) is modelled as a queued Job;
  the single-threaded event loop that later executes such continuations is
  the fuel-driven function eventLoop.  Continuations never run inside the
  synchronous phase of a call, exactly as in the JS event-loop semantics.
* A promise that is the .done of a CompiledTemplate resolves once the
  continuation of that template has run (its init happened) and all child
  promises collected into its childPromises array have resolved; this is the
  decidable predicate resolvesIn.
* Exceptions thrown synchronously (assertComponent, and the TypeError from
  reading .proxyViewFactory off an undefined template inside the
  CompileHostTemplate constructor) are Except errors threaded together with
  the state, distinct from promise rejections.
-/

namespace RuntimeCompilerModel

/-- Cache keys used by the compiled-template cache: either a component type
(dep.comp.type.runtime, a JS object modelled by its numeric identity) or a
fresh anonymous object allocated by "new Object()" in
_loadAndCompileHostComponent line 66. -/
inductive CacheKey where
  | typ (t : Nat)
  | obj (o : Nat)
deriving DecidableEq

/-- CompileDirectiveMetadata, restricted to the fields the orchestrator
reads: type.runtime (the identity), type.name, selector, isComponent, and a
flag telling host-wrapper metadata apart from ordinary component metadata
(in the source the two differ by their synthesized template). -/
structure CompileDirectiveMetadata where
  typeRuntime : Nat
  typeName : String
  selector : String
  isComponent : Bool
  isHost : Bool
deriving DecidableEq

/-- StylesCompileDependency: a stylesheet import with its module URL and
shim flag (style_compiler.ts collaborator output). -/
structure StylesCompileDependency where
  moduleUrl : String
  isShimmed : Bool
deriving DecidableEq

/-- A dependency placeholder produced by the view compiler
(view_compiler.ts): either a ViewFactoryDependency carrying the child
component metadata, or a ComponentFactoryDependency carrying the child
component type identity. -/
inductive Dep where
  | viewFactory (comp : CompileDirectiveMetadata)
  | componentFactory (runtime : Nat)
deriving DecidableEq

/-- The CompiledTemplate class (source lines 210-221): identity of the
instance, and identity of the proxyViewFactory closure allocated in its
constructor.  The inner _viewFactory cell mutated by init is tracked in
St.inits; the done promise is identified with the instance identity. -/
structure CompiledTemplate where
  tmplId : Nat
  proxyViewFactory : Nat
deriving DecidableEq

/-- The ComponentFactory object built by the CompileHostTemplate
constructor (source lines 203-207): a fresh object wrapping the selector,
the proxy view factory of the host template, and the component type. -/
structure ComponentFactory where
  factoryId : Nat
  selector : String
  proxyViewFactory : Nat
  componentType : Nat
deriving DecidableEq

/-- CompileHostTemplate (source lines 200-208): the ComponentFactory it
constructed, and the template whose done promise gates its own done
promise (this.done = _template.done.then(_ => this.componentFactory)). -/
structure CompileHostTemplate where
  componentFactory : ComponentFactory
  doneTemplate : Nat
deriving DecidableEq

/-- Synchronously thrown errors of the orchestrator. -/
inductive Err where
  /-- BaseException "Cannot resolve component using ..." (line 50). -/
  | cannotResolve (s : String)
  /-- BaseException thrown by assertComponent (lines 223-227). -/
  | notAComponent (name : String)
  /-- The TypeError raised by the CompileHostTemplate constructor when it
  reads _template.proxyViewFactory and _template is undefined (possible
  when the compiled-template cache has no entry for the host cache key,
  line 74). -/
  | blankTemplateAccess
deriving DecidableEq

/-- Events recording, in order, every call the orchestrator makes to an
external collaborator, plus cache insertions and placeholder patches. -/
inductive Ev where
  | getDirectiveMetadata (t : Nat)
  | styleCompileComponent (t : Nat)
  | styleCompileStylesheet (url : String) (shim : Bool)
  | xhrGet (url : String)
  | normalizeDirective (t : Nat)
  | parse (t : Nat)
  | viewCompile (isHost : Bool) (t : Nat)
  | realizeView (useJit : Bool) (t : Nat)
  | cacheInsert (key : CacheKey) (tmpl : Nat)
  | patch (parent : Nat) (childProxy : Nat) (recursive : Bool)
  | patchCompFactory (parent : Nat) (factory : Nat)
deriving DecidableEq

/-- Queued promise continuations: the .then callback of a component
compilation (lines 87-99) or the nested stylesheet resolution continuation
(lines 162-173). -/
inductive Job where
  | compileComp (tmplId : Nat) (meta : CompileDirectiveMetadata) (path : List CacheKey)
  | sheet (url : String) (shim : Bool)
deriving DecidableEq

/-- The external collaborators, fixed for a run: metadata resolver, view
compiler dependency output, style compiler dependency output, transport
content structure, and the backend selection flag of CompilerConfig. -/
structure CompileEnv where
  isComponent : Nat → Bool
  typeName : Nat → String
  selector : Nat → String
  viewDirectives : Nat → List Nat
  viewDeps : CompileDirectiveMetadata → List Dep
  styleDeps : CompileDirectiveMetadata → List StylesCompileDependency
  sheetDeps : String → Bool → List StylesCompileDependency
  useJit : Bool

/-- The mutable state of a RuntimeCompiler instance plus the bookkeeping
that makes JS object identity and the event loop explicit. -/
structure St where
  styleCache : List (String × Nat)
  hostCacheKeys : List (Nat × CacheKey)
  compiledTemplateCache : List (CacheKey × CompiledTemplate)
  /-- Construction log: (template identity, proxyViewFactory identity),
  appended exactly when a CompiledTemplate is constructed. -/
  created : List (Nat × Nat)
  /-- Log of CompiledTemplate.init calls: (template identity, view factory
  identity assigned into the _viewFactory cell). -/
  inits : List (Nat × Nat)
  /-- For each template whose continuation ran, the childPromises array its
  done promise waits on (identified by template identities). -/
  awaits : List (Nat × List Nat)
  jobs : List Job
  trace : List Ev
  nextId : Nat
deriving DecidableEq

/-- Map.get on an association list (first match wins, like a JS Map in
which a key is never inserted twice). -/
def mapGet {κ β : Type} [DecidableEq κ] (k : κ) : List (κ × β) → Option β
  | [] => none
  | (k', v) :: rest => if k' = k then some v else mapGet k rest

def St.empty : St := ⟨[], [], [], [], [], [], [], [], 0⟩

def emit (e : Ev) (st : St) : St := { st with trace := st.trace ++ [e] }

/-- getDirectiveMetadata resolver output for a type identity. -/
def metaOf (env : CompileEnv) (t : Nat) : CompileDirectiveMetadata :=
  ⟨t, env.typeName t, env.selector t, env.isComponent t, false⟩

/-- Modelled from the spec: createHostComponentMeta (compile_metadata.ts,
not under src/) synthesizes a host-wrapper metadata record around a
component, a trivial component template whose sole content is the target
component, keeping its type and selector. -/
def createHostComponentMeta (m : CompileDirectiveMetadata) : CompileDirectiveMetadata :=
  ⟨m.typeRuntime, m.typeName ++ "_Host", m.selector, true, true⟩

/-- The style cache key of _loadStylesheetDep line 190: the template
literal moduleUrl followed by ".shim" when isShimmed, else nothing. -/
def styleCacheKeyOf (dep : StylesCompileDependency) : String :=
  dep.moduleUrl ++ (if dep.isShimmed then ".shim" else "")

/-- _loadStylesheetDep (lines 189-197): memoize the transport fetch by the
style cache key; on a miss call xhr.get and record the promise. -/
def loadStylesheetDep (dep : StylesCompileDependency) (st : St) : Nat × St :=
  let cacheKey := styleCacheKeyOf dep
  match mapGet cacheKey st.styleCache with
  | some cssTextPromise => (cssTextPromise, st)
  | none =>
      let cssTextPromise := st.nextId
      (cssTextPromise,
        { st with
            nextId := st.nextId + 1,
            trace := st.trace ++ [.xhrGet dep.moduleUrl],
            styleCache := (cacheKey, cssTextPromise) :: st.styleCache })

/-- _resolveStylesCompileResult (lines 158-187), dependency part: fetch
each import through the style fetch cache, and queue the nested
compileStylesheet continuation that runs once the fetches resolve.  The
realization of the style statements and the patching of the style value
placeholders, which no claim mentions, are elided. -/
def resolveStylesCompileResult (deps : List StylesCompileDependency) (st : St) : St :=
  match deps with
  | [] => st
  | dep :: rest =>
      let (_cssTextPromise, st1) := loadStylesheetDep dep st
      let st2 := { st1 with jobs := st1.jobs ++ [.sheet dep.moduleUrl dep.isShimmed] }
      resolveStylesCompileResult rest st2

/-- _compileComponentStyles (lines 153-156): one call to
styleCompiler.compileComponent, then resolve its dependency list. -/
def compileComponentStyles (env : CompileEnv) (meta : CompileDirectiveMetadata) (st : St) : St :=
  resolveStylesCompileResult (env.styleDeps meta) (emit (.styleCompileComponent meta.typeRuntime) st)

/-- The nested stylesheet continuation: styleCompiler.compileStylesheet on
the fetched text, then resolve that level of dependencies. -/
def runSheetJob (env : CompileEnv) (url : String) (shim : Bool) (st : St) : St :=
  resolveStylesCompileResult (env.sheetDeps url shim) (emit (.styleCompileStylesheet url shim) st)

/-- The normalizeDirective calls made while building the joined promise in
_loadAndCompileComponent line 86, one per view directive. -/
def normalizeDirectives (dirs : List Nat) (st : St) : St :=
  match dirs with
  | [] => st
  | d :: rest => normalizeDirectives rest (emit (.normalizeDirective d) st)

/-- _loadAndCompileComponent (lines 78-104).  On a cache hit return the
cached instance unchanged.  On a miss the source first builds the joined
promise - synchronously invoking _compileComponentStyles and one
normalizeDirective per view directive - then constructs the empty
CompiledTemplate, inserts it into the compiled-template cache, and returns
it; the .then continuation is queued for the event loop. -/
def loadAndCompileComponent (env : CompileEnv) (cacheKey : CacheKey)
    (compMeta : CompileDirectiveMetadata) (viewDirectives : List Nat)
    (compilingComponentsPath : List CacheKey) (st : St) : CompiledTemplate × St :=
  match mapGet cacheKey st.compiledTemplateCache with
  | some compiledTemplate => (compiledTemplate, st)
  | none =>
      let st := compileComponentStyles env compMeta st
      let st := normalizeDirectives viewDirectives st
      let compiledTemplate : CompiledTemplate := ⟨st.nextId, st.nextId + 1⟩
      (compiledTemplate,
        { st with
            nextId := st.nextId + 2,
            created := st.created ++ [(compiledTemplate.tmplId, compiledTemplate.proxyViewFactory)],
            trace := st.trace ++ [.cacheInsert cacheKey compiledTemplate.tmplId],
            compiledTemplateCache := (cacheKey, compiledTemplate) :: st.compiledTemplateCache,
            jobs := st.jobs ++ [.compileComp compiledTemplate.tmplId compMeta compilingComponentsPath] })

/-- The CompileHostTemplate constructor call of line 75: reads
_template.proxyViewFactory (a TypeError when the cache had no entry for
the host cache key) and allocates a fresh ComponentFactory object. -/
def mkCompileHostTemplate (compMeta : CompileDirectiveMetadata) (hostCacheKey : CacheKey)
    (st : St) : Except Err CompileHostTemplate × St :=
  match mapGet hostCacheKey st.compiledTemplateCache with
  | none => (.error .blankTemplateAccess, st)
  | some tmpl =>
      (.ok ⟨⟨st.nextId, compMeta.selector, tmpl.proxyViewFactory, compMeta.typeRuntime⟩,
            tmpl.tmplId⟩,
       { st with nextId := st.nextId + 1 })

/-- _loadAndCompileHostComponent (lines 61-76): resolve metadata, lazily
allocate the per-identity host cache key, and on the first request assert
the metadata is a component (throwing otherwise, after the key was already
recorded) and start the host compilation with an empty compiling path. -/
def loadAndCompileHostComponent (env : CompileEnv) (componentType : Nat) (st : St) :
    Except Err CompileHostTemplate × St :=
  let st := emit (.getDirectiveMetadata componentType) st
  let compMeta := metaOf env componentType
  match mapGet componentType st.hostCacheKeys with
  | some hostCacheKey => mkCompileHostTemplate compMeta hostCacheKey st
  | none =>
      let hostCacheKey := CacheKey.obj st.nextId
      let st := { st with
                    nextId := st.nextId + 1,
                    hostCacheKeys := (componentType, hostCacheKey) :: st.hostCacheKeys }
      if compMeta.isComponent then
        let hostMeta := createHostComponentMeta compMeta
        let (_, st) :=
          loadAndCompileComponent env hostCacheKey hostMeta [componentType] [] st
        mkCompileHostTemplate compMeta hostCacheKey st
      else
        (.error (.notAComponent compMeta.typeName), st)

/-- What a resolveComponent caller observes: an immediately rejected
promise (PromiseWrapper.reject), a synchronously thrown exception, or a
pending promise wrapped around a CompileHostTemplate. -/
inductive ResolveOutcome where
  | rejectedFuture (e : Err)
  | thrown (e : Err)
  | future (h : CompileHostTemplate)
deriving DecidableEq

/-- resolveComponent (lines 47-53). -/
def resolveComponent (env : CompileEnv) (component : Sum String Nat) (st : St) :
    ResolveOutcome × St :=
  match component with
  | .inl s => (.rejectedFuture (.cannotResolve s), st)
  | .inr t =>
      match loadAndCompileHostComponent env t st with
      | (.ok h, st) => (.future h, st)
      | (.error e, st) => (.thrown e, st)

/-- clearCache (lines 55-59): the three Map.clear() calls. -/
def clearCache (st : St) : St :=
  { st with styleCache := [], compiledTemplateCache := [], hostCacheKeys := [] }

/-- The dependency forEach of _compileComponent (lines 113-139), carried
out over the placeholder list returned by the view compiler, accumulating
the childPromises array.  A ViewFactoryDependency clones the compiling
path, tests membership of the child cache key before pushing it, compiles
the child with the extended path, patches the placeholder with the child
proxy, and awaits the child done promise only when the child was not on
the path.  A ComponentFactoryDependency resolves the child host component
(whose synchronous throw would reject the enclosing continuation). -/
def processDependencies (env : CompileEnv) (parent : Nat) (path : List CacheKey) :
    List Dep → St → List Nat → St × Except Err (List Nat)
  | [], st, childPromises => (st, .ok childPromises)
  | .viewFactory comp :: rest, st, childPromises =>
      let childCacheKey := CacheKey.typ comp.typeRuntime
      let childViewDirectives := env.viewDirectives comp.typeRuntime
      let childIsRecursive := decide (childCacheKey ∈ path)
      let childPath := path ++ [childCacheKey]
      let (childComp, st) :=
        loadAndCompileComponent env childCacheKey comp childViewDirectives childPath st
      let st := emit (.patch parent childComp.proxyViewFactory childIsRecursive) st
      let childPromises :=
        if childIsRecursive then childPromises else childPromises ++ [childComp.tmplId]
      processDependencies env parent path rest st childPromises
  | .componentFactory r :: rest, st, childPromises =>
      match loadAndCompileHostComponent env r st with
      | (.ok childComp, st) =>
          let st := emit (.patchCompFactory parent childComp.componentFactory.factoryId) st
          processDependencies env parent path rest st (childPromises ++ [childComp.doneTemplate])
      | (.error e, st) => (st, .error e)

/-- The queued .then continuation of _loadAndCompileComponent (lines
87-98): parse, then _compileComponent (lines 106-151: one view compiler
call, the dependency loop, and backend realization), then
compiledTemplate.init, then collect childPromises into the done promise.
A throw escaping the dependency loop rejects the continuation: no init
happens and no await list is recorded. -/
def runCompileCompJob (env : CompileEnv) (tmplId : Nat) (meta : CompileDirectiveMetadata)
    (path : List CacheKey) (st : St) : St :=
  let st := emit (.parse meta.typeRuntime) st
  let st := emit (.viewCompile meta.isHost meta.typeRuntime) st
  match processDependencies env tmplId path (env.viewDeps meta) st [] with
  | (st, .error _) => st
  | (st, .ok childPromises) =>
      let st := emit (.realizeView env.useJit meta.typeRuntime) st
      let factoryId := st.nextId
      { st with
          nextId := st.nextId + 1,
          inits := st.inits ++ [(tmplId, factoryId)],
          awaits := (tmplId, childPromises) :: st.awaits }

/-- The single-threaded event loop: run queued continuations until the
queue is empty or the fuel runs out.  The claims proved below do not
depend on the order in which independent continuations are taken. -/
def eventLoop (env : CompileEnv) : Nat → St → St
  | 0, st => st
  | fuel + 1, st =>
      match st.jobs with
      | [] => st
      | job :: rest =>
          let st := { st with jobs := rest }
          match job with
          | .compileComp tmplId meta path =>
              eventLoop env fuel (runCompileCompJob env tmplId meta path st)
          | .sheet url shim => eventLoop env fuel (runSheetJob env url shim st)

/-- The done promise of template t resolves within the given recursion
depth: its continuation ran (init happened) and every promise in its
childPromises array resolves. -/
def resolvesIn (st : St) : Nat → Nat → Bool
  | 0, _ => false
  | fuel + 1, t =>
      (mapGet t st.inits).isSome &&
      ((mapGet t st.awaits).getD []).all (fun c => resolvesIn st fuel c)

/-- Events that record asynchronous work being initiated for a component:
its style compilation, the stylesheet fetches, and the directive
normalizations (the three kinds of work named by claim C4). -/
def isAsyncWorkEv : Ev → Bool
  | .styleCompileComponent _ => true
  | .styleCompileStylesheet _ _ => true
  | .xhrGet _ => true
  | .normalizeDirective _ => true
  | _ => false

def isCacheInsertEv : Ev → Bool
  | .cacheInsert _ _ => true
  | _ => false

/-- Formalization of the ordering asserted by claim C4: in the given
trace, no asynchronous-work event occurs before the first
compiled-template cache insertion. -/
def insertBeforeAsyncWork (tr : List Ev) : Bool :=
  (tr.takeWhile (fun e => !(isCacheInsertEv e))).all (fun e => !(isAsyncWorkEv e))

def isSheetJob : Job → Bool
  | .sheet _ _ => true
  | .compileComp _ _ _ => false

/-- The template identities of the queued component continuations. -/
def jobTmplIds (js : List Job) : List Nat :=
  js.filterMap (fun j =>
    match j with
    | .compileComp i _ _ => some i
    | .sheet _ _ => none)

def countEv (e : Ev) (tr : List Ev) : Nat :=
  (tr.filter (fun x => decide (x = e))).length

def isRejectedFuture : ResolveOutcome → Bool
  | .rejectedFuture _ => true
  | _ => false

def outcomeFactoryId : ResolveOutcome → Option Nat
  | .future h => some h.componentFactory.factoryId
  | _ => none

/-- Fields of the state untouched by the synchronous style-and-normalize
phase, together with the shape of what that phase may add: only
asynchronous-work trace events and only stylesheet continuation jobs. -/
def StylePhaseExt (st st' : St) : Prop :=
  st'.hostCacheKeys = st.hostCacheKeys ∧
  st'.compiledTemplateCache = st.compiledTemplateCache ∧
  st'.created = st.created ∧
  st'.inits = st.inits ∧
  st'.awaits = st.awaits ∧
  st.nextId ≤ st'.nextId ∧
  (∃ evs, st'.trace = st.trace ++ evs ∧ ∀ e ∈ evs, isAsyncWorkEv e = true) ∧
  (∃ js, st'.jobs = st.jobs ++ js ∧ ∀ j ∈ js, isSheetJob j = true)

/-- Extension relation for every operation that can create templates and
queue continuations but never runs an init: the construction log and the
queued template identities only grow, and every identity added is fresh
(allocated from the counter). -/
def FreshExt (st st' : St) : Prop :=
  st.nextId ≤ st'.nextId ∧
  st'.inits = st.inits ∧
  (∃ lc, st'.created = st.created ++ lc ∧ (lc.map Prod.fst).Nodup ∧
     ∀ i ∈ lc.map Prod.fst, st.nextId ≤ i ∧ i < st'.nextId) ∧
  (∃ lj, jobTmplIds st'.jobs = jobTmplIds st.jobs ++ lj ∧ lj.Nodup ∧
     ∀ i ∈ lj, st.nextId ≤ i ∧ i < st'.nextId)

/-- Well-formedness of a reachable state: no template identity is queued
or initialized twice, and every recorded identity is below the allocation
counter. -/
def WF (st : St) : Prop :=
  (jobTmplIds st.jobs ++ st.inits.map Prod.fst).Nodup ∧
  (∀ i ∈ jobTmplIds st.jobs, i < st.nextId) ∧
  (∀ i ∈ st.inits.map Prod.fst, i < st.nextId) ∧
  (st.created.map Prod.fst).Nodup ∧
  (∀ i ∈ st.created.map Prod.fst, i < st.nextId)

instance (st : St) : Decidable (WF st) := by unfold WF; infer_instance

/-- A concrete component identity 0 with a self-including template. -/
def comp0 : CompileDirectiveMetadata := ⟨0, "T0", "t0", true, false⟩

/-- Environment of the self-cycle scenario: every template (host wrapper
and the component template itself) contains component 0 as a child view. -/
def envSelf : CompileEnv :=
  { isComponent := fun _ => true
    typeName := fun _ => "T0"
    selector := fun _ => "t0"
    viewDirectives := fun _ => []
    viewDeps := fun _ => [.viewFactory comp0]
    styleDeps := fun _ => []
    sheetDeps := fun _ _ => []
    useJit := false }

def rSelf1 : ResolveOutcome × St := resolveComponent envSelf (.inr 0) St.empty

def stRunSelf : St := eventLoop envSelf 10 rSelf1.2

def rSelf2 : ResolveOutcome × St := resolveComponent envSelf (.inr 0) stRunSelf

def c8Second : ResolveOutcome × St := resolveComponent envSelf (.inr 0) (clearCache stRunSelf)

/-- Environment with one external stylesheet import, used to observe the
order of the stylesheet fetch relative to the cache insertion. -/
def envC4 : CompileEnv :=
  { isComponent := fun _ => true
    typeName := fun _ => "T0"
    selector := fun _ => "t0"
    viewDirectives := fun _ => []
    viewDeps := fun _ => []
    styleDeps := fun _ => [⟨"u.css", false⟩]
    sheetDeps := fun _ _ => []
    useJit := false }

/-- Environment in which no identity is a component. -/
def envNC : CompileEnv :=
  { isComponent := fun _ => false
    typeName := fun _ => "T0"
    selector := fun _ => "t0"
    viewDirectives := fun _ => []
    viewDeps := fun _ => []
    styleDeps := fun _ => []
    sheetDeps := fun _ _ => []
    useJit := false }

/-- A shimmed import of URL "a" and an unshimmed import of URL "a.shim":
two distinct resources whose style cache keys collide. -/
def dShim : StylesCompileDependency := ⟨"a", true⟩

def dPlain : StylesCompileDependency := ⟨"a.shim", false⟩

theorem strAppendCancelRight (a b c : String) (h : a ++ c = b ++ c) : a = b := by
  apply String.ext
  have h2 := congrArg String.data h
  rw [String.data_append, String.data_append] at h2
  exact List.append_cancel_right h2

@[simp]
theorem mapGet_cons_self {κ β : Type} [DecidableEq κ] (k : κ) (v : β) (l : List (κ × β)) :
    mapGet k ((k, v) :: l) = some v := by
  simp [mapGet]

theorem mapGet_cons_ne {κ β : Type} [DecidableEq κ] {k k' : κ} (v : β) (l : List (κ × β))
    (h : k' ≠ k) : mapGet k ((k', v) :: l) = mapGet k l := by
  simp [mapGet, h]

theorem mapGet_append_left {κ β : Type} [DecidableEq κ] {k : κ} {l l2 : List (κ × β)} {p : β}
    (h : mapGet k l = some p) : mapGet k (l ++ l2) = some p := by
  induction l with
  | nil => simp [mapGet] at h
  | cons hd tl ih =>
      obtain ⟨k', v⟩ := hd
      by_cases hk : k' = k
      · subst hk
        simpa [mapGet] using h
      · rw [List.cons_append, mapGet_cons_ne v _ hk]
        rw [mapGet_cons_ne v _ hk] at h
        exact ih h

theorem loadAndCompileComponent_hit (env : CompileEnv) (cacheKey : CacheKey)
    (meta : CompileDirectiveMetadata) (dirs : List Nat) (path : List CacheKey) (st : St)
    {t : CompiledTemplate} (h : mapGet cacheKey st.compiledTemplateCache = some t) :
    loadAndCompileComponent env cacheKey meta dirs path st = (t, st) := by
  unfold loadAndCompileComponent
  rw [h]

@[simp]
theorem emit_styleCache (e : Ev) (st : St) : (emit e st).styleCache = st.styleCache := rfl

@[simp]
theorem emit_hostCacheKeys (e : Ev) (st : St) : (emit e st).hostCacheKeys = st.hostCacheKeys := rfl

@[simp]
theorem emit_compiledTemplateCache (e : Ev) (st : St) :
    (emit e st).compiledTemplateCache = st.compiledTemplateCache := rfl

@[simp]
theorem emit_created (e : Ev) (st : St) : (emit e st).created = st.created := rfl

@[simp]
theorem emit_inits (e : Ev) (st : St) : (emit e st).inits = st.inits := rfl

@[simp]
theorem emit_awaits (e : Ev) (st : St) : (emit e st).awaits = st.awaits := rfl

@[simp]
theorem emit_jobs (e : Ev) (st : St) : (emit e st).jobs = st.jobs := rfl

@[simp]
theorem emit_trace (e : Ev) (st : St) : (emit e st).trace = st.trace ++ [e] := rfl

@[simp]
theorem emit_nextId (e : Ev) (st : St) : (emit e st).nextId = st.nextId := rfl

theorem loadStylesheetDep_hit (dep : StylesCompileDependency) (st : St) {p : Nat}
    (h : mapGet (styleCacheKeyOf dep) st.styleCache = some p) :
    loadStylesheetDep dep st = (p, st) := by
  simp [loadStylesheetDep, h]

theorem loadStylesheetDep_miss (dep : StylesCompileDependency) (st : St)
    (h : mapGet (styleCacheKeyOf dep) st.styleCache = none) :
    loadStylesheetDep dep st =
      (st.nextId,
       { st with
           nextId := st.nextId + 1,
           trace := st.trace ++ [.xhrGet dep.moduleUrl],
           styleCache := (styleCacheKeyOf dep, st.nextId) :: st.styleCache }) := by
  simp [loadStylesheetDep, h]

theorem stylePhaseExt_refl (st : St) : StylePhaseExt st st := by
  refine ⟨rfl, rfl, rfl, rfl, rfl, le_refl _, ⟨[], by simp, by simp⟩, ⟨[], by simp, by simp⟩⟩

theorem stylePhaseExt_trans {st1 st2 st3 : St} (h12 : StylePhaseExt st1 st2)
    (h23 : StylePhaseExt st2 st3) : StylePhaseExt st1 st3 := by
  obtain ⟨a1, a2, a3, a4, a5, a6, ⟨evs1, he1, ha1⟩, ⟨js1, hj1, hb1⟩⟩ := h12
  obtain ⟨c1, c2, c3, c4, c5, c6, ⟨evs2, he2, ha2⟩, ⟨js2, hj2, hb2⟩⟩ := h23
  refine ⟨c1.trans a1, c2.trans a2, c3.trans a3, c4.trans a4, c5.trans a5, a6.trans c6,
    ⟨evs1 ++ evs2, ?_, ?_⟩, ⟨js1 ++ js2, ?_, ?_⟩⟩
  · rw [he2, he1, List.append_assoc]
  · intro e he
    rcases List.mem_append.mp he with h | h
    · exact ha1 e h
    · exact ha2 e h
  · rw [hj2, hj1, List.append_assoc]
  · intro j hj
    rcases List.mem_append.mp hj with h | h
    · exact hb1 j h
    · exact hb2 j h

theorem loadStylesheetDep_ext (dep : StylesCompileDependency) (st : St) :
    StylePhaseExt st (loadStylesheetDep dep st).2 := by
  cases h : mapGet (styleCacheKeyOf dep) st.styleCache with
  | some p =>
      rw [loadStylesheetDep_hit dep st h]
      exact stylePhaseExt_refl st
  | none =>
      rw [loadStylesheetDep_miss dep st h]
      refine ⟨rfl, rfl, rfl, rfl, rfl, Nat.le_succ _,
        ⟨[.xhrGet dep.moduleUrl], rfl, ?_⟩, ⟨[], by simp, by simp⟩⟩
      intro e he
      simp at he
      subst he
      rfl

theorem resolveStylesCompileResult_cons (dep : StylesCompileDependency)
    (rest : List StylesCompileDependency) (st : St) :
    resolveStylesCompileResult (dep :: rest) st =
      resolveStylesCompileResult rest
        { (loadStylesheetDep dep st).2 with
            jobs := (loadStylesheetDep dep st).2.jobs ++ [.sheet dep.moduleUrl dep.isShimmed] } := by
  rw [resolveStylesCompileResult]

theorem resolveStylesCompileResult_ext (deps : List StylesCompileDependency) (st : St) :
    StylePhaseExt st (resolveStylesCompileResult deps st) := by
  induction deps generalizing st with
  | nil => exact stylePhaseExt_refl st
  | cons dep rest ih =>
      rw [resolveStylesCompileResult_cons]
      have hdep := loadStylesheetDep_ext dep st
      have hjob : StylePhaseExt (loadStylesheetDep dep st).2
          { (loadStylesheetDep dep st).2 with
              jobs := (loadStylesheetDep dep st).2.jobs ++ [.sheet dep.moduleUrl dep.isShimmed] } := by
        refine ⟨rfl, rfl, rfl, rfl, rfl, le_refl _, ⟨[], by simp, by simp⟩,
          ⟨[.sheet dep.moduleUrl dep.isShimmed], rfl, ?_⟩⟩
        intro j hj
        simp at hj
        subst hj
        rfl
      exact stylePhaseExt_trans hdep (stylePhaseExt_trans hjob (ih _))

theorem emit_asyncWork_ext (e : Ev) (st : St) (h : isAsyncWorkEv e = true) :
    StylePhaseExt st (emit e st) := by
  refine ⟨rfl, rfl, rfl, rfl, rfl, le_refl _, ⟨[e], rfl, ?_⟩, ⟨[], by simp, by simp⟩⟩
  intro x hx
  simp at hx
  subst hx
  exact h

theorem compileComponentStyles_ext (env : CompileEnv) (meta : CompileDirectiveMetadata) (st : St) :
    StylePhaseExt st (compileComponentStyles env meta st) := by
  unfold compileComponentStyles
  exact stylePhaseExt_trans
    (emit_asyncWork_ext (.styleCompileComponent meta.typeRuntime) st rfl)
    (resolveStylesCompileResult_ext _ _)

theorem runSheetJob_ext (env : CompileEnv) (url : String) (shim : Bool) (st : St) :
    StylePhaseExt st (runSheetJob env url shim st) := by
  unfold runSheetJob
  exact stylePhaseExt_trans
    (emit_asyncWork_ext (.styleCompileStylesheet url shim) st rfl)
    (resolveStylesCompileResult_ext _ _)

theorem normalizeDirectives_ext (dirs : List Nat) (st : St) :
    StylePhaseExt st (normalizeDirectives dirs st) := by
  induction dirs generalizing st with
  | nil => exact stylePhaseExt_refl st
  | cons d rest ih =>
      unfold normalizeDirectives
      exact stylePhaseExt_trans
        (emit_asyncWork_ext (.normalizeDirective d) st rfl) (ih _)

/-- The miss branch of _loadAndCompileComponent, characterized: after the
synchronous style-and-normalize phase (an extension of the state that only
initiates asynchronous work), the fresh template is constructed, logged,
inserted into the cache, and its continuation queued, all before the call
returns. -/
theorem loadAndCompileComponent_miss_spec (env : CompileEnv) (cacheKey : CacheKey)
    (meta : CompileDirectiveMetadata) (dirs : List Nat) (path : List CacheKey) (st : St)
    (h : mapGet cacheKey st.compiledTemplateCache = none) :
    ∃ st1, StylePhaseExt st st1 ∧
      loadAndCompileComponent env cacheKey meta dirs path st =
        (⟨st1.nextId, st1.nextId + 1⟩,
         { st1 with
             nextId := st1.nextId + 2,
             created := st1.created ++ [(st1.nextId, st1.nextId + 1)],
             trace := st1.trace ++ [.cacheInsert cacheKey st1.nextId],
             compiledTemplateCache :=
               (cacheKey, ⟨st1.nextId, st1.nextId + 1⟩) :: st1.compiledTemplateCache,
             jobs := st1.jobs ++ [.compileComp st1.nextId meta path] }) := by
  refine ⟨normalizeDirectives dirs (compileComponentStyles env meta st),
    stylePhaseExt_trans (compileComponentStyles_ext env meta st) (normalizeDirectives_ext _ _), ?_⟩
  unfold loadAndCompileComponent
  rw [h]

/-- C7: resolveComponent on any string input returns an immediately
rejected future carrying the invalid-argument error and leaves the state
(all three caches, the construction and init logs, the job queue and the
collaborator-call trace) completely untouched: no collaborator is invoked
and no cache is read or mutated. -/
theorem resolveComponent_string_rejected_no_work (env : CompileEnv) (s : String) (st : St) :
    resolveComponent env (.inl s) st = (.rejectedFuture (.cannotResolve s), st) := rfl

/-- C1: the compiled-template cache deduplicates. A call to
_loadAndCompileComponent whose key is already cached returns exactly the
cached CompiledTemplate instance and changes nothing (no compilation
work); a call on a fresh key caches the instance it returns, so that a
repeated call returns that identical instance with no further work. -/
theorem compiledTemplateCache_dedup (env : CompileEnv) (cacheKey : CacheKey)
    (meta : CompileDirectiveMetadata) (dirs : List Nat) (path : List CacheKey) (st : St) :
    (∀ t, mapGet cacheKey st.compiledTemplateCache = some t →
        loadAndCompileComponent env cacheKey meta dirs path st = (t, st)) ∧
    (mapGet cacheKey st.compiledTemplateCache = none →
        mapGet cacheKey
            ((loadAndCompileComponent env cacheKey meta dirs path st).2).compiledTemplateCache =
          some (loadAndCompileComponent env cacheKey meta dirs path st).1) ∧
    (mapGet cacheKey st.compiledTemplateCache = none →
        loadAndCompileComponent env cacheKey meta dirs path
            (loadAndCompileComponent env cacheKey meta dirs path st).2 =
          ((loadAndCompileComponent env cacheKey meta dirs path st).1,
           (loadAndCompileComponent env cacheKey meta dirs path st).2)) := by
  have hcached : mapGet cacheKey st.compiledTemplateCache = none →
      mapGet cacheKey
          ((loadAndCompileComponent env cacheKey meta dirs path st).2).compiledTemplateCache =
        some (loadAndCompileComponent env cacheKey meta dirs path st).1 := by
    intro h
    obtain ⟨st1, _, heq⟩ := loadAndCompileComponent_miss_spec env cacheKey meta dirs path st h
    rw [heq]
    simp
  refine ⟨?_, hcached, ?_⟩
  · intro t h
    exact loadAndCompileComponent_hit env cacheKey meta dirs path st h
  · intro h
    exact loadAndCompileComponent_hit env cacheKey meta dirs path _ (hcached h)

theorem compiledTemplateCache_dedup_witness :
    (mapGet (CacheKey.typ 0) St.empty.compiledTemplateCache = none) ∧
    loadAndCompileComponent envC4 (CacheKey.typ 0) comp0 [0] []
        (loadAndCompileComponent envC4 (CacheKey.typ 0) comp0 [0] [] St.empty).2 =
      ((loadAndCompileComponent envC4 (CacheKey.typ 0) comp0 [0] [] St.empty).1,
       (loadAndCompileComponent envC4 (CacheKey.typ 0) comp0 [0] [] St.empty).2) :=
  ⟨rfl, (compiledTemplateCache_dedup envC4 (CacheKey.typ 0) comp0 [0] [] St.empty).2.2 rfl⟩

/-- C4, counterexample: on a fresh key the compiled-template cache
insertion is NOT performed before the asynchronous work is scheduled: with
one external stylesheet import, the trace of the synchronous phase shows
the style compilation, the stylesheet fetch and the directive
normalization all happening before the cache insertion. -/
theorem cacheInsert_after_async_scheduling :
    insertBeforeAsyncWork
        ((loadAndCompileComponent envC4 (CacheKey.typ 0) comp0 [0] [] St.empty).2).trace = false ∧
    ((loadAndCompileComponent envC4 (CacheKey.typ 0) comp0 [0] [] St.empty).2).trace =
      [.styleCompileComponent 0, .xhrGet "u.css", .normalizeDirective 0,
       .cacheInsert (CacheKey.typ 0) 1] := by
  constructor
  · decide
  · decide

/-- C4, amended: on a fresh key the empty CompiledTemplate is created and
inserted synchronously, within the same call — the insertion is the last
thing the synchronous phase does, every event before it in the call is
only the initiation of asynchronous work (style compilation, stylesheet
fetches, directive normalization), and the continuation that parses,
generates code and compiles children is merely queued, to run only after
the insertion. -/
theorem cacheInsert_synchronous_before_continuation (env : CompileEnv) (cacheKey : CacheKey)
    (meta : CompileDirectiveMetadata) (dirs : List Nat) (path : List CacheKey) (st : St)
    (h : mapGet cacheKey st.compiledTemplateCache = none) :
    ∃ evs js,
      mapGet cacheKey
          ((loadAndCompileComponent env cacheKey meta dirs path st).2).compiledTemplateCache =
        some (loadAndCompileComponent env cacheKey meta dirs path st).1 ∧
      ((loadAndCompileComponent env cacheKey meta dirs path st).2).trace =
        st.trace ++ evs ++
          [.cacheInsert cacheKey (loadAndCompileComponent env cacheKey meta dirs path st).1.tmplId] ∧
      (∀ e ∈ evs, isAsyncWorkEv e = true) ∧
      ((loadAndCompileComponent env cacheKey meta dirs path st).2).jobs =
        st.jobs ++ js ++
          [.compileComp (loadAndCompileComponent env cacheKey meta dirs path st).1.tmplId meta path] ∧
      (∀ j ∈ js, isSheetJob j = true) := by
  obtain ⟨st1, hext, heq⟩ := loadAndCompileComponent_miss_spec env cacheKey meta dirs path st h
  obtain ⟨_, _, _, _, _, _, ⟨evs, htr, hasync⟩, ⟨js, hjobs, hsheet⟩⟩ := hext
  refine ⟨evs, js, ?_, ?_, hasync, ?_, hsheet⟩
  · rw [heq]
    simp
  · rw [heq]
    show st1.trace ++ [Ev.cacheInsert cacheKey st1.nextId] = _
    rw [htr, List.append_assoc]
  · rw [heq]
    show st1.jobs ++ [Job.compileComp st1.nextId meta path] = _
    rw [hjobs, List.append_assoc]

theorem cacheInsert_synchronous_before_continuation_witness :
    (mapGet (CacheKey.typ 0) St.empty.compiledTemplateCache = none) ∧
    (∃ evs js,
      mapGet (CacheKey.typ 0)
          ((loadAndCompileComponent envC4 (CacheKey.typ 0) comp0 [0] [] St.empty).2).compiledTemplateCache =
        some (loadAndCompileComponent envC4 (CacheKey.typ 0) comp0 [0] [] St.empty).1 ∧
      ((loadAndCompileComponent envC4 (CacheKey.typ 0) comp0 [0] [] St.empty).2).trace =
        St.empty.trace ++ evs ++
          [.cacheInsert (CacheKey.typ 0)
            (loadAndCompileComponent envC4 (CacheKey.typ 0) comp0 [0] [] St.empty).1.tmplId] ∧
      (∀ e ∈ evs, isAsyncWorkEv e = true) ∧
      ((loadAndCompileComponent envC4 (CacheKey.typ 0) comp0 [0] [] St.empty).2).jobs =
        St.empty.jobs ++ js ++
          [.compileComp (loadAndCompileComponent envC4 (CacheKey.typ 0) comp0 [0] [] St.empty).1.tmplId
            comp0 []] ∧
      (∀ j ∈ js, isSheetJob j = true)) :=
  ⟨rfl, cacheInsert_synchronous_before_continuation envC4 (CacheKey.typ 0) comp0 [0] [] St.empty rfl⟩

/-- C6, counterexample: the style cache key is the module URL with a
".shim" suffix appended when shimmed, and this keying is not injective: a
shimmed import of URL "a" and an unshimmed import of the distinct URL
"a.shim" share one key, so the second import performs no transport fetch
of its own URL and is served the cached promise of the first — a distinct
resource served from another pair's cached result. -/
theorem styleCache_key_collision :
    dShim ≠ dPlain ∧
    styleCacheKeyOf dShim = styleCacheKeyOf dPlain ∧
    (loadStylesheetDep dPlain (loadStylesheetDep dShim St.empty).2).1 =
      (loadStylesheetDep dShim St.empty).1 ∧
    countEv (.xhrGet "a.shim")
        ((loadStylesheetDep dPlain (loadStylesheetDep dShim St.empty).2).2).trace = 0 ∧
    ((loadStylesheetDep dPlain (loadStylesheetDep dShim St.empty).2).2).trace = [.xhrGet "a"] := by
  refine ⟨by decide, by decide, by decide, by decide, by decide⟩

/-- C6, amended: stylesheet fetches are memoized by the key combining
module URL and shim flag — a key already cached is served without any new
transport fetch, and a fresh key performs exactly one fetch and caches its
promise.  Two imports share a key exactly when they are the identical
(URL, shim) pair, or when one is a shimmed import of some URL u and the
other an unshimmed import of the URL u ++ ".shim" (the collision the
original claim excludes). -/
theorem styleCache_memoization_and_key_collisions (dep d1 d2 : StylesCompileDependency)
    (st : St) (p : Nat) :
    (mapGet (styleCacheKeyOf dep) st.styleCache = some p → loadStylesheetDep dep st = (p, st)) ∧
    (mapGet (styleCacheKeyOf dep) st.styleCache = none →
       loadStylesheetDep dep st =
         (st.nextId,
          { st with
              nextId := st.nextId + 1,
              trace := st.trace ++ [.xhrGet dep.moduleUrl],
              styleCache := (styleCacheKeyOf dep, st.nextId) :: st.styleCache })) ∧
    (styleCacheKeyOf d1 = styleCacheKeyOf d2 ↔
       d1 = d2 ∨
       (d1.isShimmed = true ∧ d2.isShimmed = false ∧ d2.moduleUrl = d1.moduleUrl ++ ".shim") ∨
       (d2.isShimmed = true ∧ d1.isShimmed = false ∧ d1.moduleUrl = d2.moduleUrl ++ ".shim")) := by
  refine ⟨fun h => loadStylesheetDep_hit dep st h, fun h => loadStylesheetDep_miss dep st h, ?_⟩
  obtain ⟨u1, s1⟩ := d1
  obtain ⟨u2, s2⟩ := d2
  cases s1 <;> cases s2 <;> simp [styleCacheKeyOf, StylesCompileDependency.mk.injEq, eq_comm]
  constructor
  · intro h
    exact strAppendCancelRight u1 u2 ".shim" h
  · intro h
    rw [h]

theorem styleCache_memoization_and_key_collisions_witness :
    (mapGet (styleCacheKeyOf dPlain) ((loadStylesheetDep dShim St.empty).2).styleCache = some 0) ∧
    loadStylesheetDep dPlain (loadStylesheetDep dShim St.empty).2 =
      (0, (loadStylesheetDep dShim St.empty).2) :=
  ⟨by decide,
   (styleCache_memoization_and_key_collisions dPlain dPlain dPlain
      (loadStylesheetDep dShim St.empty).2 0).1 (by decide)⟩

theorem loadAndCompileHostComponent_first_notComp (env : CompileEnv) (t : Nat) (st : St)
    (h1 : env.isComponent t = false) (h2 : mapGet t st.hostCacheKeys = none) :
    loadAndCompileHostComponent env t st =
      (.error (.notAComponent (env.typeName t)),
       { st with
           nextId := st.nextId + 1,
           hostCacheKeys := (t, CacheKey.obj st.nextId) :: st.hostCacheKeys,
           trace := st.trace ++ [.getDirectiveMetadata t] }) := by
  simp [loadAndCompileHostComponent, metaOf, h1, h2, emit]

theorem loadAndCompileHostComponent_cached (env : CompileEnv) (t : Nat) (st : St)
    (k : CacheKey) (tmpl : CompiledTemplate)
    (h1 : mapGet t st.hostCacheKeys = some k)
    (h2 : mapGet k st.compiledTemplateCache = some tmpl) :
    loadAndCompileHostComponent env t st =
      (.ok ⟨⟨st.nextId, env.selector t, tmpl.proxyViewFactory, t⟩, tmpl.tmplId⟩,
       { st with nextId := st.nextId + 1, trace := st.trace ++ [.getDirectiveMetadata t] }) := by
  simp [loadAndCompileHostComponent, metaOf, h1, mkCompileHostTemplate, h2, emit]

theorem loadAndCompileHostComponent_blankAccess (env : CompileEnv) (t : Nat) (st : St)
    (k : CacheKey)
    (h1 : mapGet t st.hostCacheKeys = some k)
    (h2 : mapGet k st.compiledTemplateCache = none) :
    loadAndCompileHostComponent env t st =
      (.error .blankTemplateAccess, { st with trace := st.trace ++ [.getDirectiveMetadata t] }) := by
  simp [loadAndCompileHostComponent, metaOf, h1, mkCompileHostTemplate, h2, emit]

/-- C3, counterexample: for a first request on an identity whose metadata
is not a component, resolveComponent does not yield a rejected future at
all — assertComponent throws synchronously and the exception propagates
out of resolveComponent to the caller. -/
theorem notAComponent_not_rejectedFuture :
    isRejectedFuture (resolveComponent envNC (.inr 0) St.empty).1 = false ∧
    (resolveComponent envNC (.inr 0) St.empty).1 = .thrown (.notAComponent "T0") := by
  constructor
  · decide
  · decide

/-- C3, amended: the first resolveComponent call for an identity whose
metadata is not a component throws the NotAComponentError synchronously
(rather than returning a rejected future); the only collaborator invoked
is the metadata resolver, so in particular zero calls are made to the view
code generator for that identity, no continuation is queued, and the
compiled-template cache is untouched (only the host cache key was
recorded). -/
theorem notAComponent_thrown_synchronously (env : CompileEnv) (t : Nat) (st : St)
    (h1 : env.isComponent t = false) (h2 : mapGet t st.hostCacheKeys = none) :
    resolveComponent env (.inr t) st =
      (.thrown (.notAComponent (env.typeName t)),
       { st with
           nextId := st.nextId + 1,
           hostCacheKeys := (t, CacheKey.obj st.nextId) :: st.hostCacheKeys,
           trace := st.trace ++ [.getDirectiveMetadata t] }) := by
  simp [resolveComponent, loadAndCompileHostComponent_first_notComp env t st h1 h2]

theorem notAComponent_thrown_synchronously_witness :
    (envNC.isComponent 0 = false ∧ mapGet 0 St.empty.hostCacheKeys = none) ∧
    resolveComponent envNC (.inr 0) St.empty =
      (.thrown (.notAComponent (envNC.typeName 0)),
       { St.empty with
           nextId := St.empty.nextId + 1,
           hostCacheKeys := (0, CacheKey.obj St.empty.nextId) :: St.empty.hostCacheKeys,
           trace := St.empty.trace ++ [.getDirectiveMetadata 0] }) :=
  ⟨⟨rfl, rfl⟩, notAComponent_thrown_synchronously envNC 0 St.empty rfl rfl⟩

/-- C5, counterexample: two resolveComponent calls for the same identity
(the self-cycle scenario, with the event loop drained in between) resolve
to two DISTINCT ComponentFactory objects, and the metadata resolver's
getDirectiveMetadata has run twice — not once — for that identity. -/
theorem resolve_twice_distinct_factories_two_metadata_calls :
    outcomeFactoryId rSelf1.1 ≠ outcomeFactoryId rSelf2.1 ∧
    countEv (.getDirectiveMetadata 0) rSelf2.2.trace ≠ 1 ∧
    rSelf1.1 = .future ⟨⟨3, "t0", 2, 0⟩, 1⟩ ∧
    rSelf2.1 = .future ⟨⟨8, "t0", 2, 0⟩, 1⟩ := by
  refine ⟨by decide, by decide, by decide, by decide⟩

/-- C5, amended: a resolveComponent call for an identity whose host cache
key and compiled template already exist performs exactly one collaborator
call — getDirectiveMetadata runs once per call — and returns a future
resolving to a freshly constructed ComponentFactory object that wraps the
SAME cached template: same proxy view factory and same done template as
the first call, while the factory object itself is new (its identity is
the current counter value, distinct from every previously allocated
identity).  No code generator call and no new compilation work happen. -/
theorem second_resolve_shares_template_fresh_factory (env : CompileEnv) (t : Nat) (st : St)
    (k : CacheKey) (tmpl : CompiledTemplate) (fid : Nat)
    (h1 : mapGet t st.hostCacheKeys = some k)
    (h2 : mapGet k st.compiledTemplateCache = some tmpl)
    (hf : fid < st.nextId) :
    resolveComponent env (.inr t) st =
      (.future ⟨⟨st.nextId, env.selector t, tmpl.proxyViewFactory, t⟩, tmpl.tmplId⟩,
       { st with nextId := st.nextId + 1, trace := st.trace ++ [.getDirectiveMetadata t] }) ∧
    st.nextId ≠ fid := by
  constructor
  · simp [resolveComponent, loadAndCompileHostComponent_cached env t st k tmpl h1 h2]
  · omega

theorem second_resolve_shares_template_fresh_factory_witness :
    (mapGet 0 stRunSelf.hostCacheKeys = some (CacheKey.obj 0) ∧
     mapGet (CacheKey.obj 0) stRunSelf.compiledTemplateCache = some ⟨1, 2⟩ ∧
     3 < stRunSelf.nextId) ∧
    (resolveComponent envSelf (.inr 0) stRunSelf =
      (.future ⟨⟨stRunSelf.nextId, envSelf.selector 0, 2, 0⟩, 1⟩,
       { stRunSelf with
           nextId := stRunSelf.nextId + 1,
           trace := stRunSelf.trace ++ [.getDirectiveMetadata 0] }) ∧
     stRunSelf.nextId ≠ 3) :=
  ⟨⟨by decide, by decide, by decide⟩,
   second_resolve_shares_template_fresh_factory envSelf 0 stRunSelf (CacheKey.obj 0) ⟨1, 2⟩ 3
     (by decide) (by decide) (by decide)⟩

/-- C10: the host cache key is recorded before assertComponent runs, so
after a first resolveComponent for a non-component identity throws
NotAComponentError, a second resolveComponent for the same identity skips
the assertion entirely: it does not raise NotAComponentError again but
instead fails from reading the absent compiled-template cache entry for
the recorded host key (the undefined-template access in the
CompileHostTemplate constructor). -/
theorem hostCacheKey_recorded_before_assert (env : CompileEnv) (t : Nat) (st : St)
    (h1 : env.isComponent t = false) (h2 : mapGet t st.hostCacheKeys = none)
    (h3 : mapGet (CacheKey.obj st.nextId) st.compiledTemplateCache = none) :
    resolveComponent env (.inr t) st =
      (.thrown (.notAComponent (env.typeName t)),
       { st with
           nextId := st.nextId + 1,
           hostCacheKeys := (t, CacheKey.obj st.nextId) :: st.hostCacheKeys,
           trace := st.trace ++ [.getDirectiveMetadata t] }) ∧
    resolveComponent env (.inr t)
        { st with
            nextId := st.nextId + 1,
            hostCacheKeys := (t, CacheKey.obj st.nextId) :: st.hostCacheKeys,
            trace := st.trace ++ [.getDirectiveMetadata t] } =
      (.thrown .blankTemplateAccess,
       { st with
           nextId := st.nextId + 1,
           hostCacheKeys := (t, CacheKey.obj st.nextId) :: st.hostCacheKeys,
           trace := (st.trace ++ [.getDirectiveMetadata t]) ++ [.getDirectiveMetadata t] }) := by
  constructor
  · simp [resolveComponent, loadAndCompileHostComponent_first_notComp env t st h1 h2]
  · have hb := loadAndCompileHostComponent_blankAccess env t
      { st with
          nextId := st.nextId + 1,
          hostCacheKeys := (t, CacheKey.obj st.nextId) :: st.hostCacheKeys,
          trace := st.trace ++ [.getDirectiveMetadata t] }
      (CacheKey.obj st.nextId) (by simp) h3
    simp [resolveComponent, hb]

theorem hostCacheKey_recorded_before_assert_witness :
    (envNC.isComponent 0 = false ∧ mapGet 0 St.empty.hostCacheKeys = none ∧
     mapGet (CacheKey.obj St.empty.nextId) St.empty.compiledTemplateCache = none) ∧
    ((resolveComponent envNC (.inr 0) St.empty).1 = .thrown (.notAComponent "T0") ∧
     (resolveComponent envNC (.inr 0) (resolveComponent envNC (.inr 0) St.empty).2).1 =
       .thrown .blankTemplateAccess) := by
  have h := hostCacheKey_recorded_before_assert envNC 0 St.empty rfl rfl rfl
  refine ⟨⟨rfl, rfl, rfl⟩, ?_, ?_⟩
  · rw [h.1]
    rfl
  · rw [h.1]
    rw [show ((ResolveOutcome.thrown (Err.notAComponent (envNC.typeName 0)),
        { St.empty with
            nextId := St.empty.nextId + 1,
            hostCacheKeys := (0, CacheKey.obj St.empty.nextId) :: St.empty.hostCacheKeys,
            trace := St.empty.trace ++ [Ev.getDirectiveMetadata 0] }) :
          ResolveOutcome × St).2 =
        { St.empty with
            nextId := St.empty.nextId + 1,
            hostCacheKeys := (0, CacheKey.obj St.empty.nextId) :: St.empty.hostCacheKeys,
            trace := St.empty.trace ++ [Ev.getDirectiveMetadata 0] } from rfl, h.2]

/-- C8: clearCache empties exactly the three caches (style cache,
compiled-template cache, host-cache-key table) and mutates nothing else —
the construction log (existing CompiledTemplate objects and their
proxies), the init log, the recorded await lists, the queued in-flight
continuations, the trace and the identity counter are all untouched.
Afterwards (concretely, for the previously resolved identity 0 of the
self-cycle scenario) a new resolveComponent starts fresh work: a new host
cache key distinct from the old one, a new CompiledTemplate distinct from
the old one, and a fresh getDirectiveMetadata call, while the pre-clear
objects survive unchanged in the logs. -/
theorem clearCache_frame_and_fresh_restart (st : St) :
    (clearCache st).styleCache = [] ∧
    (clearCache st).compiledTemplateCache = [] ∧
    (clearCache st).hostCacheKeys = [] ∧
    (clearCache st).created = st.created ∧
    (clearCache st).inits = st.inits ∧
    (clearCache st).awaits = st.awaits ∧
    (clearCache st).jobs = st.jobs ∧
    (clearCache st).trace = st.trace ∧
    (clearCache st).nextId = st.nextId ∧
    mapGet 0 stRunSelf.hostCacheKeys = some (CacheKey.obj 0) ∧
    mapGet (CacheKey.obj 0) stRunSelf.compiledTemplateCache = some ⟨1, 2⟩ ∧
    countEv (.getDirectiveMetadata 0) stRunSelf.trace = 1 ∧
    mapGet 0 c8Second.2.hostCacheKeys = some (CacheKey.obj 8) ∧
    CacheKey.obj 8 ≠ CacheKey.obj 0 ∧
    mapGet (CacheKey.obj 8) c8Second.2.compiledTemplateCache = some ⟨9, 10⟩ ∧
    (9 : Nat) ≠ 1 ∧
    countEv (.getDirectiveMetadata 0) c8Second.2.trace = 2 ∧
    c8Second.2.created = stRunSelf.created ++ [(9, 10)] ∧
    c8Second.2.inits = stRunSelf.inits ∧
    c8Second.2.awaits = stRunSelf.awaits := by
  refine ⟨rfl, rfl, rfl, rfl, rfl, rfl, rfl, rfl, rfl,
    by decide, by decide, by decide, by decide, by decide, by decide, by decide,
    by decide, by decide, by decide, by decide⟩

/-- C2: cycle termination.  General part: in the dependency loop, a child
view dependency whose cache key is already on the compiling path is
detected as recursive, its placeholder is patched with the proxy of the
CompiledTemplate already in the cache (created by the ancestor call), and
its done promise is NOT added to the childPromises accumulator.  Concrete
part, on the self-including component of the self-cycle scenario: the
event loop drains completely, the recursive patch is recorded, the
component template awaits nothing, and both its completion and the host
completion resolve — the template does not wait on itself. -/
theorem cycle_detected_not_awaited (env : CompileEnv) (parent : Nat) (path : List CacheKey)
    (comp : CompileDirectiveMetadata) (st : St) (acc : List Nat) (tc : CompiledTemplate)
    (h1 : CacheKey.typ comp.typeRuntime ∈ path)
    (h2 : mapGet (CacheKey.typ comp.typeRuntime) st.compiledTemplateCache = some tc) :
    processDependencies env parent path [.viewFactory comp] st acc =
      (emit (.patch parent tc.proxyViewFactory true) st, .ok acc) ∧
    (stRunSelf.jobs = [] ∧
     Ev.patch 4 5 true ∈ stRunSelf.trace ∧
     mapGet 4 stRunSelf.awaits = some [] ∧
     resolvesIn stRunSelf 3 4 = true ∧
     resolvesIn stRunSelf 3 1 = true) := by
  constructor
  · have hdec : decide (CacheKey.typ comp.typeRuntime ∈ path) = true := decide_eq_true h1
    have hload := loadAndCompileComponent_hit env (CacheKey.typ comp.typeRuntime) comp
      (env.viewDirectives comp.typeRuntime) (path ++ [CacheKey.typ comp.typeRuntime]) st h2
    simp [processDependencies, hdec, hload]
  · refine ⟨by decide, by decide, by decide, by decide, by decide⟩

theorem cycle_detected_not_awaited_witness :
    (CacheKey.typ comp0.typeRuntime ∈ [CacheKey.typ 0] ∧
     mapGet (CacheKey.typ comp0.typeRuntime) stRunSelf.compiledTemplateCache = some ⟨4, 5⟩) ∧
    processDependencies envSelf 4 [CacheKey.typ 0] [.viewFactory comp0] stRunSelf [] =
      (emit (.patch 4 (5 : Nat) true) stRunSelf, .ok []) :=
  ⟨⟨by decide, by decide⟩,
   (cycle_detected_not_awaited envSelf 4 [CacheKey.typ 0] comp0 stRunSelf [] ⟨4, 5⟩
      (by decide) (by decide)).1⟩


@[simp]
theorem jobTmplIds_nil : jobTmplIds [] = [] := rfl

@[simp]
theorem jobTmplIds_cons_sheet (u : String) (s : Bool) (js : List Job) :
    jobTmplIds (.sheet u s :: js) = jobTmplIds js := by
  simp [jobTmplIds]

@[simp]
theorem jobTmplIds_cons_comp (i : Nat) (m : CompileDirectiveMetadata) (p : List CacheKey)
    (js : List Job) : jobTmplIds (.compileComp i m p :: js) = i :: jobTmplIds js := by
  simp [jobTmplIds]

@[simp]
theorem jobTmplIds_append (a b : List Job) : jobTmplIds (a ++ b) = jobTmplIds a ++ jobTmplIds b := by
  simp [jobTmplIds, List.filterMap_append]

theorem jobTmplIds_of_sheets {js : List Job} (h : ∀ j ∈ js, isSheetJob j = true) :
    jobTmplIds js = [] := by
  induction js with
  | nil => rfl
  | cons j rest ih =>
      cases j with
      | sheet u s => simpa using ih (fun x hx => h x (List.mem_cons_of_mem _ hx))
      | compileComp i m p =>
          have := h _ (List.mem_cons_self _ _)
          simp [isSheetJob] at this

theorem fresh_concat {n1 n2 n3 : Nat} {l1 l2 : List Nat} (h12 : n1 ≤ n2) (h23 : n2 ≤ n3)
    (hn1 : l1.Nodup) (hb1 : ∀ i ∈ l1, n1 ≤ i ∧ i < n2)
    (hn2 : l2.Nodup) (hb2 : ∀ i ∈ l2, n2 ≤ i ∧ i < n3) :
    (l1 ++ l2).Nodup ∧ ∀ i ∈ l1 ++ l2, n1 ≤ i ∧ i < n3 := by
  constructor
  · rw [List.nodup_append]
    refine ⟨hn1, hn2, ?_⟩
    intro a ha1 ha2
    have b1 := hb1 a ha1
    have b2 := hb2 a ha2
    omega
  · intro i hi
    rcases List.mem_append.mp hi with hm | hm
    · have := hb1 i hm
      omega
    · have := hb2 i hm
      omega

theorem freshExt_refl (st : St) : FreshExt st st :=
  ⟨le_refl _, rfl, ⟨[], by simp, by simp, by simp⟩, ⟨[], by simp, by simp, by simp⟩⟩

theorem freshExt_trans {st1 st2 st3 : St} (h12 : FreshExt st1 st2) (h23 : FreshExt st2 st3) :
    FreshExt st1 st3 := by
  obtain ⟨hle1, hi1, ⟨lc1, hc1, hcn1, hcb1⟩, ⟨lj1, hj1, hjn1, hjb1⟩⟩ := h12
  obtain ⟨hle2, hi2, ⟨lc2, hc2, hcn2, hcb2⟩, ⟨lj2, hj2, hjn2, hjb2⟩⟩ := h23
  have hc := fresh_concat hle1 hle2 hcn1 hcb1 hcn2 hcb2
  have hj := fresh_concat hle1 hle2 hjn1 hjb1 hjn2 hjb2
  refine ⟨hle1.trans hle2, hi2.trans hi1, ⟨lc1 ++ lc2, ?_, ?_, ?_⟩, ⟨lj1 ++ lj2, ?_, ?_, ?_⟩⟩
  · rw [hc2, hc1, List.append_assoc]
  · rw [List.map_append]
    exact hc.1
  · rw [List.map_append]
    exact hc.2
  · rw [hj2, hj1, List.append_assoc]
  · exact hj.1
  · exact hj.2

theorem stylePhaseExt_freshExt {st st' : St} (h : StylePhaseExt st st') : FreshExt st st' := by
  obtain ⟨_, _, hc, hi, _, hle, _, ⟨js, hj, hsheet⟩⟩ := h
  refine ⟨hle, hi, ⟨[], by simp [hc], by simp, by simp⟩, ⟨[], ?_, by simp, by simp⟩⟩
  rw [hj, jobTmplIds_append, jobTmplIds_of_sheets hsheet]

theorem freshExt_emit (e : Ev) (st : St) : FreshExt st (emit e st) :=
  ⟨le_refl _, rfl, ⟨[], by simp, by simp, by simp⟩, ⟨[], by simp, by simp, by simp⟩⟩

theorem loadAndCompileComponent_freshExt (env : CompileEnv) (key : CacheKey)
    (meta : CompileDirectiveMetadata) (dirs : List Nat) (path : List CacheKey) (st : St) :
    FreshExt st (loadAndCompileComponent env key meta dirs path st).2 := by
  cases h : mapGet key st.compiledTemplateCache with
  | some t =>
      rw [loadAndCompileComponent_hit env key meta dirs path st h]
      exact freshExt_refl st
  | none =>
      obtain ⟨st1, hext, heq⟩ := loadAndCompileComponent_miss_spec env key meta dirs path st h
      rw [heq]
      dsimp only
      refine freshExt_trans (stylePhaseExt_freshExt hext) ?_
      refine ⟨by dsimp only; omega, rfl,
        ⟨[(st1.nextId, st1.nextId + 1)], rfl, by simp, ?_⟩,
        ⟨[st1.nextId], by simp, by simp, ?_⟩⟩
      · intro i hi
        simp at hi
        subst hi
        dsimp only
        omega
      · intro i hi
        simp at hi
        subst hi
        dsimp only
        omega

theorem mkCompileHostTemplate_freshExt (meta : CompileDirectiveMetadata) (k : CacheKey) (st : St) :
    FreshExt st (mkCompileHostTemplate meta k st).2 := by
  unfold mkCompileHostTemplate
  cases h : mapGet k st.compiledTemplateCache with
  | none => exact freshExt_refl st
  | some tmpl =>
      exact ⟨Nat.le_succ _, rfl, ⟨[], by simp, by simp, by simp⟩, ⟨[], by simp, by simp, by simp⟩⟩

theorem loadAndCompileHostComponent_found (env : CompileEnv) (t : Nat) (st : St) (k : CacheKey)
    (h : mapGet t st.hostCacheKeys = some k) :
    loadAndCompileHostComponent env t st =
      mkCompileHostTemplate (metaOf env t) k (emit (.getDirectiveMetadata t) st) := by
  simp [loadAndCompileHostComponent, h, emit]

theorem loadAndCompileHostComponent_first_comp (env : CompileEnv) (t : Nat) (st : St)
    (h1 : env.isComponent t = true) (h2 : mapGet t st.hostCacheKeys = none) :
    loadAndCompileHostComponent env t st =
      mkCompileHostTemplate (metaOf env t) (CacheKey.obj st.nextId)
        (loadAndCompileComponent env (CacheKey.obj st.nextId)
          (createHostComponentMeta (metaOf env t)) [t] []
          { st with
              nextId := st.nextId + 1,
              hostCacheKeys := (t, CacheKey.obj st.nextId) :: st.hostCacheKeys,
              trace := st.trace ++ [.getDirectiveMetadata t] }).2 := by
  simp [loadAndCompileHostComponent, metaOf, h1, h2, emit]

theorem loadAndCompileHostComponent_freshExt (env : CompileEnv) (t : Nat) (st : St) :
    FreshExt st (loadAndCompileHostComponent env t st).2 := by
  cases h : mapGet t st.hostCacheKeys with
  | some k =>
      rw [loadAndCompileHostComponent_found env t st k h]
      exact freshExt_trans (freshExt_emit _ st) (mkCompileHostTemplate_freshExt _ _ _)
  | none =>
      cases hc : env.isComponent t with
      | false =>
          rw [loadAndCompileHostComponent_first_notComp env t st hc h]
          exact ⟨Nat.le_succ _, rfl, ⟨[], by simp, by simp, by simp⟩,
            ⟨[], by simp, by simp, by simp⟩⟩
      | true =>
          rw [loadAndCompileHostComponent_first_comp env t st hc h]
          have hmid : FreshExt st
              { st with
                  nextId := st.nextId + 1,
                  hostCacheKeys := (t, CacheKey.obj st.nextId) :: st.hostCacheKeys,
                  trace := st.trace ++ [.getDirectiveMetadata t] } :=
            ⟨Nat.le_succ _, rfl, ⟨[], by simp, by simp, by simp⟩,
             ⟨[], by simp, by simp, by simp⟩⟩
          exact freshExt_trans hmid
            (freshExt_trans (loadAndCompileComponent_freshExt _ _ _ _ _ _)
              (mkCompileHostTemplate_freshExt _ _ _))

theorem processDependencies_freshExt (env : CompileEnv) (parent : Nat) (path : List CacheKey) :
    ∀ (deps : List Dep) (st : St) (acc : List Nat),
      FreshExt st (processDependencies env parent path deps st acc).1 := by
  intro deps
  induction deps with
  | nil =>
      intro st acc
      exact freshExt_refl st
  | cons dep rest ih =>
      intro st acc
      cases dep with
      | viewFactory comp =>
          rcases hl : loadAndCompileComponent env (CacheKey.typ comp.typeRuntime) comp
              (env.viewDirectives comp.typeRuntime) (path ++ [CacheKey.typ comp.typeRuntime]) st
            with ⟨tc, st2⟩
          have hf1 : FreshExt st st2 := by
            have h0 := loadAndCompileComponent_freshExt env (CacheKey.typ comp.typeRuntime) comp
              (env.viewDirectives comp.typeRuntime) (path ++ [CacheKey.typ comp.typeRuntime]) st
            rw [hl] at h0
            exact h0
          simp only [processDependencies, hl]
          exact freshExt_trans hf1 (freshExt_trans (freshExt_emit _ _) (ih _ _))
      | componentFactory r =>
          rcases hr : loadAndCompileHostComponent env r st with ⟨res, st2⟩
          have hf1 : FreshExt st st2 := by
            have h0 := loadAndCompileHostComponent_freshExt env r st
            rw [hr] at h0
            exact h0
          cases res with
          | ok childComp =>
              simp only [processDependencies, hr]
              exact freshExt_trans hf1 (freshExt_trans (freshExt_emit _ _) (ih _ _))
          | error e =>
              simp only [processDependencies, hr]
              exact hf1

theorem wf_freshExt {st st' : St} (hwf : WF st) (h : FreshExt st st') : WF st' := by
  obtain ⟨hnd, hjb, hib, hcn, hcb⟩ := hwf
  obtain ⟨hle, hi, ⟨lc, hc, hcnd, hcb2⟩, ⟨lj, hj, hjnd, hjb2⟩⟩ := h
  refine ⟨?_, ?_, ?_, ?_, ?_⟩
  · rw [hj, hi]
    have hperm : List.Perm ((jobTmplIds st.jobs ++ lj) ++ st.inits.map Prod.fst)
        ((jobTmplIds st.jobs ++ st.inits.map Prod.fst) ++ lj) := by
      rw [List.append_assoc, List.append_assoc]
      exact List.Perm.append_left _ List.perm_append_comm
    refine hperm.nodup_iff.mpr ?_
    rw [List.nodup_append]
    refine ⟨hnd, hjnd, ?_⟩
    intro a ha1 ha2
    have h2 := hjb2 a ha2
    rcases List.mem_append.mp ha1 with hm | hm
    · have := hjb a hm
      omega
    · have := hib a hm
      omega
  · rw [hj]
    intro i hi2
    rcases List.mem_append.mp hi2 with hm | hm
    · have := hjb i hm
      omega
    · have := (hjb2 i hm).2
      omega
  · rw [hi]
    intro i hi2
    have := hib i hi2
    omega
  · rw [hc, List.map_append, List.nodup_append]
    refine ⟨hcn, hcnd, ?_⟩
    intro a ha1 ha2
    have h1 := hcb a ha1
    have h2 := hcb2 a ha2
    omega
  · rw [hc, List.map_append]
    intro i hi2
    rcases List.mem_append.mp hi2 with hm | hm
    · have := hcb i hm
      omega
    · have := (hcb2 i hm).2
      omega

theorem runCompileCompJob_eq (env : CompileEnv) (i : Nat) (m : CompileDirectiveMetadata)
    (p : List CacheKey) (s : St) :
    runCompileCompJob env i m p s =
      match processDependencies env i p (env.viewDeps m)
          (emit (.viewCompile m.isHost m.typeRuntime) (emit (.parse m.typeRuntime) s)) [] with
      | (s3, .error _) => s3
      | (s3, .ok cps) =>
          { s3 with
              trace := s3.trace ++ [.realizeView env.useJit m.typeRuntime],
              nextId := s3.nextId + 1,
              inits := s3.inits ++ [(i, s3.nextId)],
              awaits := (i, cps) :: s3.awaits } := rfl

theorem wf_runCompileCompJob (env : CompileEnv) (i : Nat) (m : CompileDirectiveMetadata)
    (p : List CacheKey) (s : St) (hwf : WF s)
    (hni : i ∉ jobTmplIds s.jobs ++ s.inits.map Prod.fst) (hlt : i < s.nextId) :
    WF (runCompileCompJob env i m p s) ∧
    ∃ lc, (runCompileCompJob env i m p s).created = s.created ++ lc := by
  rw [runCompileCompJob_eq]
  rcases hp : processDependencies env i p (env.viewDeps m)
      (emit (.viewCompile m.isHost m.typeRuntime) (emit (.parse m.typeRuntime) s)) []
    with ⟨s3, res⟩
  have hf3 : FreshExt s s3 := by
    have h0 := processDependencies_freshExt env i p (env.viewDeps m)
      (emit (.viewCompile m.isHost m.typeRuntime) (emit (.parse m.typeRuntime) s)) []
    rw [hp] at h0
    exact freshExt_trans (freshExt_trans (freshExt_emit _ _) (freshExt_emit _ _)) h0
  obtain ⟨hle3, hi3, ⟨lc3, hc3, hcn3, hcb3⟩, ⟨lj3, hj3, hjn3, hjb3⟩⟩ := hf3
  obtain ⟨hnd3, hjb3a, hib3, hcn3a, hcb3a⟩ :=
    wf_freshExt hwf ⟨hle3, hi3, ⟨lc3, hc3, hcn3, hcb3⟩, ⟨lj3, hj3, hjn3, hjb3⟩⟩
  cases res with
  | error e => exact ⟨⟨hnd3, hjb3a, hib3, hcn3a, hcb3a⟩, ⟨lc3, hc3⟩⟩
  | ok cps =>
      have hinotin : i ∉ jobTmplIds s3.jobs ++ s3.inits.map Prod.fst := by
        intro hmem
        rcases List.mem_append.mp hmem with hm | hm
        · rw [hj3] at hm
          rcases List.mem_append.mp hm with hm2 | hm2
          · exact hni (List.mem_append_left _ hm2)
          · have := (hjb3 i hm2).1
            omega
        · rw [hi3] at hm
          exact hni (List.mem_append_right _ hm)
      refine ⟨⟨?_, ?_, ?_, ?_, ?_⟩, ⟨lc3, hc3⟩⟩
      · dsimp only
        rw [List.map_append, ← List.append_assoc]
        rw [List.nodup_append]
        refine ⟨hnd3, by simp, ?_⟩
        intro a ha1 ha2
        simp at ha2
        subst ha2
        exact hinotin ha1
      · dsimp only
        intro x hx
        have := hjb3a x hx
        omega
      · dsimp only
        intro x hx
        rw [List.map_append] at hx
        rcases List.mem_append.mp hx with hm | hm
        · have := hib3 x hm
          omega
        · simp at hm
          subst hm
          omega
      · exact hcn3a
      · dsimp only
        intro x hx
        have := hcb3a x hx
        omega

theorem wf_runSheetJob (env : CompileEnv) (url : String) (shim : Bool) (s : St) (hwf : WF s) :
    WF (runSheetJob env url shim s) ∧
    (runSheetJob env url shim s).created = s.created := by
  have hext := runSheetJob_ext env url shim s
  refine ⟨wf_freshExt hwf (stylePhaseExt_freshExt hext), hext.2.2.1⟩

theorem wf_eventLoop (env : CompileEnv) :
    ∀ (fuel : Nat) (st : St), WF st →
      WF (eventLoop env fuel st) ∧
      ∃ lc, (eventLoop env fuel st).created = st.created ++ lc := by
  intro fuel
  induction fuel with
  | zero =>
      intro st h
      exact ⟨h, [], by simp [eventLoop]⟩
  | succ fuel ih =>
      intro st h
      obtain ⟨sc, hk, ctc, cr, ini, aw, jobs, tr, nid⟩ := st
      cases jobs with
      | nil => exact ⟨h, [], by simp [eventLoop]⟩
      | cons job rest =>
          obtain ⟨hnd, hjb, hib, hcn, hcb⟩ := h
          cases job with
          | sheet url shim =>
              have hstep : eventLoop env (fuel + 1) ⟨sc, hk, ctc, cr, ini, aw,
                    .sheet url shim :: rest, tr, nid⟩ =
                  eventLoop env fuel
                    (runSheetJob env url shim ⟨sc, hk, ctc, cr, ini, aw, rest, tr, nid⟩) := rfl
              rw [hstep]
              have hwfpop : WF ⟨sc, hk, ctc, cr, ini, aw, rest, tr, nid⟩ := by
                refine ⟨?_, ?_, hib, hcn, hcb⟩
                · simpa using hnd
                · intro x hx
                  exact hjb x (by simpa using hx)
              obtain ⟨hwf2, hcr2⟩ := wf_runSheetJob env url shim _ hwfpop
              obtain ⟨hwf3, lc, hc3⟩ := ih _ hwf2
              refine ⟨hwf3, lc, ?_⟩
              rw [hc3, hcr2]
          | compileComp tmplId meta path =>
              have hstep : eventLoop env (fuel + 1) ⟨sc, hk, ctc, cr, ini, aw,
                    .compileComp tmplId meta path :: rest, tr, nid⟩ =
                  eventLoop env fuel
                    (runCompileCompJob env tmplId meta path
                      ⟨sc, hk, ctc, cr, ini, aw, rest, tr, nid⟩) := rfl
              rw [hstep]
              rw [jobTmplIds_cons_comp, List.cons_append, List.nodup_cons] at hnd
              have hwfpop : WF ⟨sc, hk, ctc, cr, ini, aw, rest, tr, nid⟩ := by
                refine ⟨hnd.2, ?_, hib, hcn, hcb⟩
                · intro x hx
                  refine hjb x ?_
                  rw [jobTmplIds_cons_comp]
                  exact List.mem_cons_of_mem _ hx
              have hlt : tmplId < nid := by
                refine hjb tmplId ?_
                rw [jobTmplIds_cons_comp]
                exact List.mem_cons_self _ _
              obtain ⟨hwf2, lc1, hcr2⟩ :=
                wf_runCompileCompJob env tmplId meta path
                  ⟨sc, hk, ctc, cr, ini, aw, rest, tr, nid⟩ hwfpop hnd.1 hlt
              obtain ⟨hwf3, lc2, hc3⟩ := ih _ hwf2
              refine ⟨hwf3, lc1 ++ lc2, ?_⟩
              rw [hc3, hcr2, List.append_assoc]

/-- C9: for every CompiledTemplate the proxy callable recorded at
construction is never reassigned — the construction log is append-only,
so any (template, proxy) pairing present before the event loop runs is
still its first (authoritative) entry afterwards — and the inner view
factory installed by init is assigned at most once per template: the init
log never records two entries for the same template identity, for any run
from a well-formed state. -/
theorem proxy_stable_init_once (env : CompileEnv) (fuel : Nat) (st : St) (h : WF st) :
    WF (eventLoop env fuel st) ∧
    ((eventLoop env fuel st).inits.map Prod.fst).Nodup ∧
    (∀ i p, mapGet i st.created = some p → mapGet i (eventLoop env fuel st).created = some p) := by
  obtain ⟨hwf, lc, hc⟩ := wf_eventLoop env fuel st h
  refine ⟨hwf, ?_, ?_⟩
  · exact (List.nodup_append.mp hwf.1).2.1
  · intro i p hm
    rw [hc]
    exact mapGet_append_left hm

theorem proxy_stable_init_once_witness :
    WF rSelf1.2 ∧
    WF (eventLoop envSelf 10 rSelf1.2) ∧
    ((eventLoop envSelf 10 rSelf1.2).inits.map Prod.fst).Nodup ∧
    mapGet 1 (eventLoop envSelf 10 rSelf1.2).created = some 2 :=
  ⟨by decide,
   (proxy_stable_init_once envSelf 10 rSelf1.2 (by decide)).1,
   (proxy_stable_init_once envSelf 10 rSelf1.2 (by decide)).2.1,
   (proxy_stable_init_once envSelf 10 rSelf1.2 (by decide)).2.2 1 2 (by decide)⟩

end RuntimeCompilerModel
